import Mathlib

/-!
Verification of the grolab AI browser-assistant core against its
natural-language specification.

The development shallowly embeds the orchestration logic of the source
files `src/ai-client.js`, `src/background.js` and `src/content.js`:

* `AIClientM` models the retry/backoff loop of `AIClient.complete`.
  The network is abstracted as a function from attempt index to the
  outcome of that attempt (success, abort-timeout, HTTP status error,
  or a status-less error), exactly mirroring the error classification
  order of the JavaScript `catch` block.
* `BackgroundM` models the session orchestrator: message routing with
  its "AI not configured" guard, `handleChat` (including the transient
  message list built for the second provider call), `executeToolCalls`,
  `trimHistory` and `handleNavigation`.
* `ContentM` models the page controller: the element-resolution
  cascade of `findAndClick`, the schema-driven `extractData` /
  `extractValue` pipeline, and the highlight lifecycle of
  `findAndHighlight` / `clearHighlights`.

Host-runtime primitives (the network, `chrome.tabs.sendMessage`,
`JSON.parse` / `JSON.stringify`, CSS selector validity, `parseFloat`
and `Date` parsing, the DOM click) are passed in as explicit function
parameters; everything else is translated directly from the source.
-/

namespace AIClientM

/-- Canonical tool call as normalised by the client:
JS `{ id, function: { name, arguments } }`, flattened. -/

structure ToolCall where
  id : String
  name : String
  arguments : String
deriving Repr, DecidableEq, Inhabited

/-- Canonical provider response: JS `{ content, tool_calls }` where
`tool_calls` is an array or `null` (here `Option`). -/

structure CanonResp where
  content : String
  tool_calls : Option (List ToolCall) := none
deriving Repr, DecidableEq, Inhabited

/-- Outcome of one network attempt inside `complete`:
the attempt returns a response, aborts on the timeout controller
(`AbortError`), rejects with an HTTP status attached (`err.status`),
or rejects with no status field (any other failure). -/

inductive Outcome where
  | ok (resp : CanonResp)
  | abortTimeout
  | http (status : Nat)
  | other (msg : String)
deriving Repr, DecidableEq, Inhabited

/-- Terminal result of `complete`, one constructor per classification
branch of the JS `catch` block. -/

inductive CompletionResult where
  | success (resp : CanonResp)
  | timeoutErr (msg : String)
  | authErr (msg : String)
  | httpErr (status : Nat)
  | otherErr (msg : String)
deriving Repr, DecidableEq, Inhabited

/-- Result of a whole `complete` run together with its observable
retry trace: number of attempts made and the backoff delays (in
milliseconds) that were slept between attempts. -/

structure RunResult where
  result : CompletionResult
  attempts : Nat
  delays : List Nat
deriving Repr, DecidableEq, Inhabited

/-- JS: `error.status === 429 || error.status >= 500`. -/

def retryableStatus (s : Nat) : Bool :=
  s == 429 || 500 ≤ s

/-- Classification of a single attempt outcome, in the exact order of
the JS `catch` block: `AbortError` first, then 401/403, then 400,
then the retryable statuses (which are terminal only when retries are
exhausted), then everything else.  Every terminal exit of the loop
body produces exactly this value for the final attempt outcome. -/

def classify (timeoutMs : Nat) (provider : String) (o : Outcome) : CompletionResult :=
  match o with
  | .ok r => .success r
  | .abortTimeout =>
      .timeoutErr ("Request timed out after " ++ toString (timeoutMs / 1000)
        ++ "s. Try a shorter message or check your connection.")
  | .http s =>
      if s = 401 ∨ s = 403 then
        .authErr ("Authentication failed. Please check your " ++ provider ++ " API key.")
      else
        .httpErr s
  | .other m => .otherErr m

/-- The retry loop of `AIClient.complete`, lines 19-67 of
`src/ai-client.js`.  `attempt` is the current loop index, `remaining`
is `maxRetries - attempt` (the number of retries still allowed); the
loop body classifies the outcome of attempt `attempt` and either
terminates or sleeps `2 ^ attempt * 1000` ms and recurses. -/

def completeLoop (timeoutMs : Nat) (provider : String) (net : Nat → Outcome) :
    Nat → Nat → RunResult
  | attempt, remaining =>
    match net attempt with
    | .ok r => ⟨.success r, 1, []⟩
    | .abortTimeout => ⟨classify timeoutMs provider .abortTimeout, 1, []⟩
    | .http s =>
        if s = 401 ∨ s = 403 then ⟨classify timeoutMs provider (.http s), 1, []⟩
        else if s = 400 then ⟨.httpErr 400, 1, []⟩
        else if retryableStatus s then
          match remaining with
          | 0 => ⟨.httpErr s, 1, []⟩
          | r + 1 =>
              let rest := completeLoop timeoutMs provider net (attempt + 1) r
              ⟨rest.result, rest.attempts + 1, (2 ^ attempt * 1000) :: rest.delays⟩
        else ⟨.httpErr s, 1, []⟩
    | .other m => ⟨.otherErr m, 1, []⟩

/-- `AIClient.complete`: up to `maxRetries + 1` attempts starting at
attempt index 0. -/

def complete (timeoutMs : Nat) (provider : String) (maxRetries : Nat)
    (net : Nat → Outcome) : RunResult :=
  completeLoop timeoutMs provider net 0 maxRetries

/-- An outcome causes a retry (when attempts remain) exactly when it is
an HTTP 429 or 5xx error: timeouts, 401/403, 400 and status-less
errors are classified before the retry test in the source. -/

def retriedOutcome (o : Outcome) : Bool :=
  match o with
  | .http s =>
      if s = 401 ∨ s = 403 then false
      else if s = 400 then false
      else retryableStatus s
  | _ => false

/-- Concrete network trace for the C2 witness: attempt 0 gets HTTP 503,
attempt 1 gets HTTP 429, attempt 2 succeeds. -/

def netEx : Nat → Outcome := fun n =>
  match n with
  | 0 => .http 503
  | 1 => .http 429
  | _ => .ok ⟨"done", none⟩

end AIClientM

namespace BackgroundM

open AIClientM (ToolCall CanonResp)

/-- `CONFIG.MAX_HISTORY_PER_TAB` in `src/background.js`. -/

def MAX_HISTORY_PER_TAB : Nat := 20

/-- `CONFIG.DEFAULT_MODEL`. -/

def DEFAULT_MODEL : String := "gpt-4-turbo-preview"

/-- Message roles used by the orchestrator. -/

inductive Role where
  | user
  | assistant
  | tool
  | system
deriving Repr, DecidableEq, Inhabited

/-- A history entry: `{ role, content, tool_calls?, tool_call_id? }`.
Absent JS fields are the empty list / `none`. -/

structure Message where
  role : Role
  content : String
  tool_calls : List ToolCall := []
  tool_call_id : Option String := none
deriving Repr, DecidableEq, Inhabited

/-- A tool result as seen by the background worker: either whatever
object the content script responded with (kept abstract in `data`), or
the failure object built in the `catch` of `executeToolCalls`. -/

structure ToolResult where
  success : Bool
  error : Option String := none
  tool : Option String := none
  data : Option String := none
deriving Repr, DecidableEq, Inhabited

/-- Host-runtime primitives used by one chat turn: `JSON.parse` of the
tool-call arguments (the parsed value is kept as an opaque token),
`chrome.tabs.sendMessage` with `{ tool, params, toolCallId }`, and
`JSON.stringify` of a tool result. -/

structure ChatHost where
  parseArgs : String → Except String String
  send : String → String → String → Except String ToolResult
  stringify : ToolResult → String

/-- The body of one iteration of the `executeToolCalls` loop:
`JSON.parse(call.function.arguments)` followed by
`chrome.tabs.sendMessage` — either can throw. -/

def attemptToolCall (host : ChatHost) (c : ToolCall) : Except String ToolResult :=
  match host.parseArgs c.arguments with
  | .error e => .error e
  | .ok params => host.send c.name params c.id

/-- `AIBrowserAssistant.executeToolCalls`, lines 349-371 of
`src/background.js`: iterate the calls in order, pushing either the
content-script response or the `catch`-built failure object. -/

def executeToolCalls (host : ChatHost) : List ToolCall → List ToolResult
  | [] => []
  | c :: rest =>
      (match attemptToolCall host c with
       | .ok r => r
       | .error e => { success := false, error := some e, tool := some c.name }) ::
      executeToolCalls host rest

/-- `AIBrowserAssistant.trimHistory`, lines 408-418 of
`src/background.js`.  When over the limit it keeps
`history.slice(startIdx, startIdx + 1)` — the single entry just after
the first system turn, or the very first entry when there is none —
followed by `history.slice(-(MAX_HISTORY_PER_TAB - 1))`, the most
recent 19 entries. -/

def trimHistory (history : List Message) : List Message :=
  if MAX_HISTORY_PER_TAB < history.length then
    let startIdx :=
      match history.findIdx? (fun m => m.role == Role.system) with
      | some i => i + 1
      | none => 0
    (history.drop startIdx).take 1 ++
      history.drop (history.length - (MAX_HISTORY_PER_TAB - 1))
  else history

/-- Output of one `handleChat` turn: the session history after the
turn, the message list passed to the second provider call (when the
first response carried tool calls), and the returned response text. -/

structure ChatOut where
  history : List Message
  secondCallMessages : Option (List Message)
  response : String
deriving Repr, DecidableEq, Inhabited

/-- The branch of `handleChat` taken when the first response carries
no tool calls: append the assistant message and trim. -/

def noToolTurn (history1 : List Message) (resp : CanonResp) : ChatOut :=
  ⟨trimHistory (history1 ++ [{ role := .assistant, content := resp.content }]),
   none, resp.content⟩

/-- `AIBrowserAssistant.handleChat`, lines 138-197 of
`src/background.js`.  `resp` is the first provider response and
`finalResp` the second (only consulted when `resp` carries tool
calls).  Note that the assistant-with-tool-calls message and the
tool-role result messages are built only into the transient array for
the second provider call; the session history receives the user turn
and the final assistant turn alone. -/

def handleChat (history0 : List Message) (message : String) (host : ChatHost)
    (resp finalResp : CanonResp) : ChatOut :=
  let history1 := history0 ++ [{ role := Role.user, content := message }]
  match resp.tool_calls with
  | some calls =>
      if 0 < calls.length then
        let results := executeToolCalls host calls
        let toolMsgs := results.enum.map (fun p =>
          ({ role := Role.tool, content := host.stringify p.2,
             tool_call_id := some ((calls.getD p.1 default).id) } : Message))
        let msgs2 := history1 ++
          [{ role := Role.assistant, content := resp.content, tool_calls := calls }] ++
          toolMsgs
        ⟨trimHistory (history1 ++ [{ role := Role.assistant, content := finalResp.content }]),
         some msgs2, finalResp.content⟩
      else noToolTurn history1 resp
  | none => noToolTurn history1 resp

/-- `AIBrowserAssistant.handleNavigation`, lines 435-445 of
`src/background.js`, restricted to its effect on an existing session's
history: push a system message, with no trimming. -/

def handleNavigation (history : List Message) (url : String) : List Message :=
  history ++ [{ role := Role.system, content := "User navigated to: " ++ url }]

/-- An event touching one session's history: a completed chat turn or
a completed main-frame navigation. -/

inductive BgEvent where
  | chatTurn (message : String) (resp finalResp : CanonResp)
  | navigation (url : String)

/-- Effect of one event on a session's history. -/

def stepEvent (host : ChatHost) (history : List Message) : BgEvent → List Message
  | .chatTurn m r fr => (handleChat history m host r fr).history
  | .navigation url => handleNavigation history url

/-- A session's history after a sequence of events, starting from the
empty history of a freshly created session. -/

def runEvents (host : ChatHost) (events : List BgEvent) : List Message :=
  events.foldl (stepEvent host) []

/-- The object stored under the `ai_config` storage key. -/

structure StoredConfig where
  provider : Option String := none
  apiKey : Option String := none
  model : Option String := none
deriving Repr, DecidableEq, Inhabited

/-- JS truthiness of an optional string field: present and non-empty. -/

def jsTruthy : Option String → Bool
  | some s => s ≠ ""
  | none => false

/-- `a || b` on an optional string against a string default. -/

def jsOr (o : Option String) (dflt : String) : String :=
  match o with
  | some s => if s = "" then dflt else s
  | none => dflt

/-- The configured `AIClient` instance (its constructor applies the
defaults `provider || 'openai'` and `model || 'gpt-4-turbo-preview'`;
both call sites in `background.js` apply the same defaults again, so
the composition is this single normalisation). -/

structure ClientCfg where
  provider : String
  apiKey : Option String
  model : String
deriving Repr, DecidableEq, Inhabited

/-- `new AIClient({provider, apiKey, model})`. -/

def mkAIClient (provider apiKey model : Option String) : ClientCfg :=
  ⟨jsOr provider "openai", apiKey, jsOr model DEFAULT_MODEL⟩

/-- Per-tab session state (only the history matters to the claims). -/

structure Session where
  history : List Message := []
deriving Repr, DecidableEq, Inhabited

/-- Orchestrator state: the optional AI client, the per-tab session
map, and the stored configuration. -/

structure BgState where
  ai : Option ClientCfg := none
  sessions : List (Nat × Session) := []
  storedConfig : Option StoredConfig := none
deriving Repr, DecidableEq, Inhabited

/-- `AIBrowserAssistant.init`, lines 24-41 of `src/background.js`: the
client is created only when the stored config exists and its `apiKey`
is truthy — the provider tag, including `local`, is never consulted. -/

def initState (stored : Option StoredConfig) : BgState :=
  { ai :=
      match stored with
      | some cfg =>
          if jsTruthy cfg.apiKey then
            some (mkAIClient cfg.provider cfg.apiKey cfg.model)
          else none
      | none => none,
    sessions := [],
    storedConfig := stored }

/-- `AIBrowserAssistant.updateConfig`, lines 465-473: stores the config
and unconditionally replaces the client — even when the new config has
no `apiKey`. -/

def updateConfig (st : BgState) (cfg : StoredConfig) : BgState :=
  { st with
    storedConfig := some cfg,
    ai := some (mkAIClient cfg.provider cfg.apiKey cfg.model) }

/-- Message-bus actions routed by `handleMessage`. -/

inductive Request where
  | chat (message : String)
  | analyzePage
  | executeAction
  | getPageStructure
  | summarize
  | extractDataReq
  | getConfig
  | setConfig (cfg : StoredConfig)
  | clearHistory
  | getHistory
deriving Repr, DecidableEq, Inhabited

/-- `request.action === 'get_config' || request.action === 'set_config'`,
the two actions exempt from the AI guard. -/

def isConfigAction : Request → Bool
  | .getConfig => true
  | .setConfig _ => true
  | _ => false

/-- Responses returned by `handleMessage`.  Responses produced by
forwarding to the content script or the provider are opaque here. -/

inductive BgResponse where
  | errorMsg (msg : String)
  | okSuccess
  | configValue (cfg : Option StoredConfig)
  | historyValue (history : List Message)
  | chatReply (out : ChatOut)
  | forwarded
  | runtimeError (msg : String)
deriving Repr, DecidableEq, Inhabited

/-- Result of routing one message: the response sent back, the new
orchestrator state, and how many provider (`this.ai.complete`) calls
were made while servicing it. -/

structure HandleOut where
  response : BgResponse
  state : BgState
  providerCalls : Nat
deriving Repr, DecidableEq, Inhabited

/-- History of the session for `tabId`, empty when absent. -/

def sessionHistory (st : BgState) (tabId : Nat) : List Message :=
  match st.sessions.lookup tabId with
  | some s => s.history
  | none => []

/-- Store a session under `tabId`, replacing any existing entry. -/

def setSession (sessions : List (Nat × Session)) (tabId : Nat) (s : Session) :
    List (Nat × Session) :=
  if sessions.any (fun p => p.1 == tabId) then
    sessions.map (fun p => if p.1 == tabId then (tabId, s) else p)
  else sessions ++ [(tabId, s)]

/-- `AIBrowserAssistant.handleMessage`, lines 89-136 of
`src/background.js`.  The guard returns the "AI not configured" error
for every action except `get_config` and `set_config` when no client
exists.  `summarize` and `extract_data` dispatch to methods that are
not defined on the class, so with a client configured they raise a
`TypeError` that the listener's catch turns into an error reply. -/

def handleMessage (host : ChatHost) (resp finalResp : CanonResp) (st : BgState)
    (tabId : Nat) (req : Request) : HandleOut :=
  if st.ai.isNone && !isConfigAction req then
    ⟨.errorMsg "AI not configured. Please set API key in settings.", st, 0⟩
  else
    match req with
    | .chat m =>
        let out := handleChat (sessionHistory st tabId) m host resp finalResp
        ⟨.chatReply out,
         { st with sessions := setSession st.sessions tabId ⟨out.history⟩ },
         1 + (if out.secondCallMessages.isSome then 1 else 0)⟩
    | .analyzePage => ⟨.forwarded, st, 1⟩
    | .executeAction => ⟨.forwarded, st, 0⟩
    | .getPageStructure => ⟨.forwarded, st, 0⟩
    | .summarize => ⟨.runtimeError "this.summarizePage is not a function", st, 0⟩
    | .extractDataReq => ⟨.runtimeError "this.extractData is not a function", st, 0⟩
    | .getConfig => ⟨.configValue st.storedConfig, st, 0⟩
    | .setConfig cfg => ⟨.okSuccess, updateConfig st cfg, 0⟩
    | .clearHistory =>
        ⟨.okSuccess, { st with sessions := st.sessions.filter (fun p => p.1 != tabId) }, 0⟩
    | .getHistory => ⟨.historyValue (sessionHistory st tabId), st, 0⟩

/-- A trivial messaging host: arguments parse to themselves, the
content script answers every call with a success result, results
stringify to a fixed token. -/

def hostOk : ChatHost where
  parseArgs := fun s => .ok s
  send := fun tool _params _id => .ok { success := true, tool := some tool }
  stringify := fun r => if r.success then "ok" else "fail"

/-- A host whose `JSON.parse` fails on the argument string "bad". -/

def hostFail : ChatHost where
  parseArgs := fun s => if s = "bad" then .error "Unexpected token" else .ok s
  send := fun tool _params _id => .ok { success := true, tool := some tool }
  stringify := fun _ => "r"

/-- An empty provider response with no tool calls. -/

def respEmpty : CanonResp := { content := "" }

/-- Concrete batch for the C3 witness: the second call carries
unparsable arguments. -/

def callsEx : List ToolCall :=
  [⟨"id1", "click_element", "good"⟩, ⟨"id2", "fill_form", "bad"⟩]

/-- First provider response of the C1 scenario: one tool call. -/

def respTool : CanonResp :=
  { content := "Clicking the button",
    tool_calls := some [⟨"call_1", "click_element", "args"⟩] }

/-- Second provider response of the C1 scenario. -/

def respFinal : CanonResp := { content := "Done" }

/-- 21 distinct user messages, one over the history limit. -/

def hist21 : List Message :=
  (List.range 21).map (fun i => { role := Role.user, content := toString i })

/-- 21 entries with a single system turn at index 10 (as left by a
navigation between chat turns), one over the history limit. -/
def hSys21 : List Message :=
  (List.range 21).map (fun i =>
    if i = 10 then { role := Role.system, content := "nav" }
    else { role := Role.user, content := toString i })

/-- A chat turn whose first provider response has no tool calls. -/

def chatEv : BgEvent := .chatTurn "hi" { content := "hello" } respEmpty

/-- A main-frame navigation event. -/

def navEv : BgEvent := .navigation "https://example.com"

/-- Ten chat turns filling the history to the 20-entry limit, then one
navigation. -/

def eventsEx : List BgEvent := List.replicate 10 chatEv ++ [navEv]

/-- A state with no AI client configured and one live session. -/

def stNoAi : BgState :=
  { ai := none,
    sessions := [(5, ⟨[{ role := Role.user, content := "old" }]⟩)],
    storedConfig := none }

/-- The four chat-class actions of claim C10. -/

def isAiAction : Request → Bool
  | .chat _ => true
  | .analyzePage => true
  | .summarize => true
  | .extractDataReq => true
  | _ => false

/-- A stored configuration selecting the local provider with no API
key. -/

def keylessLocal : StoredConfig := { provider := some "local" }

end BackgroundM

namespace ContentM

/-- A DOM element as seen by `PageController`: the CSS selectors it
matches, its rendered/raw text, accessibility attributes, standard
reflected properties (absent ones are `none` / the empty string, which
is falsy in JS), computed visibility, whether it matches the fuzzy
candidate selector `button, a, input, [role="button"]`, and identity
data used by `describeElement`. -/

structure Elem where
  selectors : List String := []
  textContent : String := ""
  innerText : String := ""
  innerHTML : String := ""
  ariaLabel : String := ""
  ariaLabelledby : String := ""
  value : Option String := none
  href : Option String := none
  src : Option String := none
  attrs : List (String × String) := []
  visible : Bool := true
  fuzzyCandidate : Bool := false
  tag : String := ""
  idAttr : String := ""
deriving Repr, DecidableEq, Inhabited

/-- A document is its elements in document order. -/

abbrev Document := List Elem

/-- Character comparison, optionally case-insensitive. -/

def charEq (cs : Bool) (a b : Char) : Bool :=
  if cs then a == b else a.toLower == b.toLower

/-- Does `q` match a prefix of `t` (under the given case mode)? -/

def matchAt (cs : Bool) : List Char → List Char → Bool
  | [], _ => true
  | _ :: _, [] => false
  | q :: qs, c :: ts => charEq cs q c && matchAt cs qs ts

/-- Does `q` match at some position of `t`? -/

def containsFrom (cs : Bool) (q : List Char) : List Char → Bool
  | [] => q.isEmpty
  | c :: rest => matchAt cs q (c :: rest) || containsFrom cs q rest

/-- JS `hay.includes(needle)` (case mode `cs`); the empty needle is
contained in everything. -/

def strContains (cs : Bool) (hay needle : String) : Bool :=
  needle.data.isEmpty || containsFrom cs needle.data hay.data

/-- `document.querySelector(sel)`: first element matching `sel`. -/

def querySelector (doc : Document) (sel : String) : Option Elem :=
  doc.find? (fun el => el.selectors.contains sel)

/-- `PageController.findElementByText`, lines 471-480 of
`src/content.js`: the XPath query selects the first element whose text
nodes contain the description (case-sensitive substring). -/

def findElementByText (doc : Document) (text : String) : Option Elem :=
  doc.find? (fun el => strContains true el.textContent text)

/-- `PageController.findElementByAria`, lines 482-484: first element
whose `aria-label` or `aria-labelledby` contains the label,
case-insensitively (the `i` selector flag). -/

def findElementByAria (doc : Document) (label : String) : Option Elem :=
  doc.find? (fun el =>
    strContains false el.ariaLabel label || strContains false el.ariaLabelledby label)

/-- Lower-casing, character by character. -/

def toLowerStr (s : String) : String :=
  String.mk (s.data.map Char.toLower)

/-- Split on whitespace runs are modelled by splitting on every
whitespace character and dropping empty tokens afterwards. -/

def splitWsAux : List Char → List Char → List String
  | [], acc => [String.mk acc.reverse]
  | c :: rest, acc =>
      if c.isWhitespace then String.mk acc.reverse :: splitWsAux rest []
      else splitWsAux rest (c :: acc)

/-- `description.toLowerCase().split(/\s+/)`; empty tokens (arising in
JS only from leading whitespace) are dropped. -/

def fuzzyKeywords (description : String) : List String :=
  (splitWsAux (toLowerStr description).data []).filter (fun s => s ≠ "")

/-- `el.innerText || el.value || el.getAttribute('aria-label') || ''`. -/

def fuzzyText (el : Elem) : String :=
  if el.innerText ≠ "" then el.innerText
  else if el.value.getD "" ≠ "" then el.value.getD ""
  else el.ariaLabel

/-- The predicate of the fuzzy search: the element's rendered text,
lowered, contains some lowercase keyword of the description. -/

def fuzzyMatches (description : String) (el : Elem) : Bool :=
  (fuzzyKeywords description).any (fun kw =>
    strContains true (toLowerStr (fuzzyText el)) kw)

/-- `PageController.fuzzyFindElement`, lines 486-494: first candidate
(in document order, over `button, a, input, [role="button"]`) whose
lowered text/value/label contains any keyword. -/

def fuzzyFindElement (doc : Document) (description : String) : Option Elem :=
  (doc.filter (fun el => el.fuzzyCandidate)).find? (fuzzyMatches description)

/-- The element summary built by `describeElement`, lines 508-518. -/

structure ElemDesc where
  tag : String
  idAttr : String
  text : String
deriving Repr, DecidableEq, Inhabited

def describeElement (el : Elem) : ElemDesc :=
  ⟨el.tag, el.idAttr, String.mk (el.innerText.data.take 100)⟩

/-- Result of `findAndClick`: four distinct outcome shapes, mirroring
the structured objects returned at lines 205-245 of `src/content.js`. -/

inductive ClickOutcome where
  | notFound (description : String) (selector : Option String)
  | notVisible (el : ElemDesc)
  | clicked (method : String) (el : ElemDesc)
  | clickFailed (msg : String) (el : ElemDesc)
deriving Repr, DecidableEq, Inhabited

/-- The resolution cascade of `findAndClick`, lines 178-203: explicit
selector, then text content, then ARIA label, then fuzzy keywords;
each later stage runs only when every earlier stage produced nothing,
and the method tag records the stage that succeeded. -/

def resolveElement (doc : Document) (description : String)
    (selector : Option String) : Option (Elem × String) :=
  let step0 : Option (Elem × String) :=
    match selector with
    | some s => (querySelector doc s).map (fun e => (e, "selector"))
    | none => none
  let step1 :=
    match step0 with
    | some r => some r
    | none => (findElementByText doc description).map (fun e => (e, "text"))
  let step2 :=
    match step1 with
    | some r => some r
    | none => (findElementByAria doc description).map (fun e => (e, "aria"))
  match step2 with
  | some r => some r
  | none => (fuzzyFindElement doc description).map (fun e => (e, "fuzzy"))

/-- `PageController.findAndClick`, lines 178-246.  The click itself is
a host effect that may throw (caught at lines 236-243). -/

def findAndClick (clickHost : Elem → Except String Unit) (doc : Document)
    (description : String) (selector : Option String) : ClickOutcome :=
  match resolveElement doc description selector with
  | none => .notFound description selector
  | some (el, method) =>
      if el.visible then
        match clickHost el with
        | .ok _ => .clicked method (describeElement el)
        | .error e => .clickFailed ("Click failed: " ++ e) (describeElement el)
      else .notVisible (describeElement el)

/-- A host click that always succeeds. -/

def clickOk : Elem → Except String Unit := fun _ => .ok ()

/-- The C8 scenario element: a visible button whose rendered text
matches the description only through the fuzzy keyword stage. -/

def btnEx : Elem :=
  { selectors := ["button.submit"], innerText := "Submit now",
    textContent := "Submit now", fuzzyCandidate := true, visible := true,
    tag := "button" }

/-- The C8 scenario document. -/

def docEx8 : Document :=
  [{ textContent := "Welcome", innerText := "Welcome", tag := "p" }, btnEx]

/-- The `transform` field of an extraction schema entry. -/

inductive Transform where
  | number
  | date
  | trim
deriving Repr, DecidableEq, Inhabited

/-- A scalar JS value produced by `extractValue`: null, undefined, a
string, or the (host-interpreted) result of `parseFloat` / `Date`
parsing kept as an opaque token. -/

inductive ScalarValue where
  | nullV
  | undef
  | str (s : String)
  | token (t : String)
deriving Repr, DecidableEq, Inhabited

/-- A value recorded for one schema field by `extractData`: a scalar,
an array of scalars (the `multiple` path), or the inline error object
`{ error: message }` written by the per-field catch. -/

inductive FieldValue where
  | scalar (v : ScalarValue)
  | arr (vs : List ScalarValue)
  | errObj (msg : String)
deriving Repr, DecidableEq, Inhabited

/-- Host primitives of the extraction pipeline: CSS selector validity
(an invalid selector makes `querySelectorAll` throw), `parseFloat`
coercion, `new Date(v).toISOString()` (throws on invalid dates), and
the `eval` escape hatch. -/

structure ExtractHost where
  selectorValid : String → Bool
  parseFloatV : ScalarValue → ScalarValue
  parseDateV : ScalarValue → Except String ScalarValue
  evalJs : String → Except String FieldValue

/-- Trimming, character by character (JS `String.prototype.trim`). -/

def trimStr (s : String) : String :=
  String.mk (((s.data.dropWhile Char.isWhitespace).reverse.dropWhile
    Char.isWhitespace).reverse)

/-- `value?.trim()`: optional chaining maps null/undefined to
undefined; the only other value reaching this transform in the source
is a string. -/

def jsTrimSafe : ScalarValue → ScalarValue
  | .str s => .str (trimStr s)
  | .nullV => .undef
  | .undef => .undef
  | v => v

/-- The three transform lines at the end of `extractValue`,
lines 544-546 of `src/content.js`. -/

def applyTransform (host : ExtractHost) (transform : Option Transform)
    (v : ScalarValue) : Except String ScalarValue :=
  match transform with
  | some .number => .ok (host.parseFloatV v)
  | some .date => host.parseDateV v
  | some .trim => .ok (jsTrimSafe v)
  | none => .ok v

/-- `PageController.extractValue`, lines 520-549: a missing element
returns null before any attribute access or transform; otherwise the
attribute switch picks the raw value (absent reflected properties are
undefined, an absent attribute is null) and the transform is applied. -/

def extractValue (host : ExtractHost) (element : Option Elem)
    (attr : Option String) (transform : Option Transform) :
    Except String ScalarValue :=
  match element with
  | none => .ok .nullV
  | some el =>
      let value : ScalarValue :=
        match attr.getD "text" with
        | "text" => .str el.innerText
        | "html" => .str el.innerHTML
        | "href" => (match el.href with | some s => .str s | none => .undef)
        | "src" => (match el.src with | some s => .str s | none => .undef)
        | "value" => (match el.value with | some s => .str s | none => .undef)
        | a => (match el.attrs.lookup a with | some s => .str s | none => .nullV)
      applyTransform host transform value

/-- One entry of the extraction schema (the JS `attribute` field is
called `attr` here because `attribute` is reserved in Lean). -/

structure FieldConfig where
  selector : Option String := none
  attr : Option String := none
  multiple : Bool := false
  transform : Option Transform := none
  evaluate : Option String := none
deriving Repr, DecidableEq, Inhabited

/-- JS truthiness of an optional string config field. -/

def truthyStr : Option String → Option String
  | some s => if s = "" then none else some s
  | none => none

/-- `document.querySelectorAll(sel)`: all matching elements in
document order; throws on an invalid selector. -/

def querySelectorAll (host : ExtractHost) (doc : Document) (sel : String) :
    Except String (List Elem) :=
  if host.selectorValid sel then
    .ok (doc.filter (fun el => el.selectors.contains sel))
  else
    .error ("Failed to execute querySelectorAll: " ++ sel ++
      " is not a valid selector.")

/-- The body of the per-field `try` of `extractData`, lines 444-456:
a truthy `selector` drives the selector/attribute/transform path
(`multiple` maps all matches, otherwise `elements[0]` — undefined when
nothing matches — is read); otherwise a truthy `evaluate` runs the
eval escape hatch; otherwise nothing is assigned for the key. -/

def extractFieldE (host : ExtractHost) (doc : Document) (cfg : FieldConfig) :
    Except String (Option FieldValue) :=
  match truthyStr cfg.selector with
  | some sel =>
      match querySelectorAll host doc sel with
      | .error e => .error e
      | .ok elements =>
          if cfg.multiple then
            match elements.mapM (fun el =>
                extractValue host (some el) cfg.attr cfg.transform) with
            | .ok vs => .ok (some (.arr vs))
            | .error e => .error e
          else
            match extractValue host elements.head? cfg.attr cfg.transform with
            | .ok v => .ok (some (.scalar v))
            | .error e => .error e
  | none =>
      match truthyStr cfg.evaluate with
      | some code =>
          match host.evalJs code with
          | .ok v => .ok (some v)
          | .error e => .error e
      | none => .ok none

/-- The per-field catch, lines 457-459: a throw becomes the inline
`{ error: message }` value for that key. -/

def fieldOutcome (host : ExtractHost) (doc : Document) (cfg : FieldConfig) :
    Option FieldValue :=
  match extractFieldE host doc cfg with
  | .ok none => none
  | .ok (some v) => some v
  | .error e => some (.errObj e)

/-- The `for (const [key, config] of Object.entries(schema))` loop of
`extractData`, lines 443-460. -/

def extractLoop (host : ExtractHost) (doc : Document) :
    List (String × FieldConfig) → List (String × FieldValue)
  | [] => []
  | (k, cfg) :: rest =>
      match fieldOutcome host doc cfg with
      | some v => (k, v) :: extractLoop host doc rest
      | none => extractLoop host doc rest

/-- Result shape of `extractData`, line 462: `{ success: true, data }`. -/

structure ExtractOut where
  success : Bool
  data : List (String × FieldValue)
deriving Repr, DecidableEq, Inhabited

/-- `PageController.extractData`, lines 440-463. -/

def extractData (host : ExtractHost) (doc : Document)
    (schema : List (String × FieldConfig)) : ExtractOut :=
  ⟨true, extractLoop host doc schema⟩

/-- Is a field value the inline error marker? -/

def isErrObj : FieldValue → Bool
  | .errObj _ => true
  | _ => false

/-- Host for the C7 scenario: every selector is valid, transforms and
eval are irrelevant. -/

def hostEx7 : ExtractHost where
  selectorValid := fun _ => true
  parseFloatV := fun v => v
  parseDateV := fun v => .ok v
  evalJs := fun _ => .error "eval disabled"

/-- Document with one `h1` element and nothing matching `.price`. -/

def docEx7 : Document := [{ selectors := ["h1"], innerText := "Hello" }]

/-- Two-field schema; the second selector matches nothing. -/

def schemaEx7 : List (String × FieldConfig) :=
  [("title", { selector := some "h1" }), ("price", { selector := some ".price" })]

/-- A node of the rendered text, as walked by `findAndHighlight`:
plain text, text under SCRIPT/STYLE/NOSCRIPT (rejected by the walker's
filter), or a `<mark class="ai-assistant-highlight">` wrapper.  The
`query` argument of `mark` is provenance bookkeeping for the theorems:
a real mark node carries only the class, and `clearHighlights` removes
every mark regardless of this tag. -/

inductive HNode where
  | text (s : String)
  | rawText (s : String)
  | mark (query : String) (content : String)
deriving Repr, DecidableEq, Inhabited

/-- The highlighted document is its nodes in order. -/

abbrev HDoc := List HNode

def isMark : HNode → Bool
  | .mark _ _ => true
  | _ => false

/-- The provenance tags of all marks in the document. -/

def markQueries (doc : HDoc) : List String :=
  doc.filterMap (fun n =>
    match n with
    | .mark q _ => some q
    | _ => none)

/-- `parent.replaceChild(document.createTextNode(mark.textContent), mark)`:
a mark is replaced by a text node holding its content. -/

def unwrapMark : HNode → HNode
  | .mark _ c => .text c
  | n => n

/-- `parent.normalize()`: merge adjacent text nodes. -/

def normalizeNodes : HDoc → HDoc
  | [] => []
  | .text a :: rest =>
      (match normalizeNodes rest with
       | .text b :: tail => .text (a ++ b) :: tail
       | tail => .text a :: tail)
  | .rawText s :: rest => .rawText s :: normalizeNodes rest
  | .mark q c :: rest => .mark q c :: normalizeNodes rest

/-- `PageController.clearHighlights`, lines 569-580 of
`src/content.js`: every `.ai-assistant-highlight` mark is unwrapped
into its text content and adjacent text nodes are merged. -/

def clearHighlights (doc : HDoc) : HDoc :=
  normalizeNodes (doc.map unwrapMark)

/-- The regex replacement of `findAndHighlight`, lines 411-413, on one
text run: scan left to right; at each position where the (escaped,
hence literal) query matches — case mode per the `gi`/`g` flags — wrap
the matched characters in a mark tagged with the query and continue
after the match; other characters accumulate into plain text. -/

def scanWrap (q : String) (cs : Bool) : List Char → List Char → List HNode
  | [], acc => if acc.isEmpty then [] else [.text (String.mk acc.reverse)]
  | c :: rest, acc =>
      if h : q.data ≠ [] ∧ matchAt cs q.data (c :: rest) = true then
        (if acc.isEmpty then [] else [.text (String.mk acc.reverse)]) ++
        .mark q (String.mk ((c :: rest).take q.data.length)) ::
          scanWrap q cs ((c :: rest).drop q.data.length) []
      else scanWrap q cs rest (c :: acc)
termination_by t _acc => t.length
decreasing_by
  · have hq : 0 < q.data.length := List.length_pos.mpr h.1
    simp
    exact hq
  · simp

/-- Wrapping one node: only plain text nodes outside
SCRIPT/STYLE/NOSCRIPT are rewritten. -/

def wrapNode (q : String) (cs : Bool) : HNode → List HNode
  | .text s => scanWrap q cs s.data []
  | n => [n]

/-- Outcome summary of `findAndHighlight` (the match excerpts are not
modelled). -/

inductive FindOutcome where
  | queryTooShort
  | found (count : Nat)
deriving Repr, DecidableEq, Inhabited

/-- `PageController.findAndHighlight`, lines 372-438: previous marks
are cleared first — before the minimum-length check — and then the
new query is wrapped over the clean document. -/

def findAndHighlight (query : String) (caseSensitive : Bool) (doc : HDoc) :
    HDoc × FindOutcome :=
  let cleared := clearHighlights doc
  if query.length < 2 then (cleared, .queryTooShort)
  else
    let wrapped := (cleared.map (wrapNode query caseSensitive)).flatten
    (wrapped, .found (wrapped.countP isMark))

end ContentM

namespace AIClientM

theorem completeLoop_zero (t : Nat) (p : String) (net : Nat → Outcome)
    (a : Nat) : completeLoop t p net a 0 = ⟨classify t p (net a), 1, []⟩ := by
  unfold completeLoop
  cases hnet : net a <;> dsimp only
  any_goals rfl
  case http s =>
    by_cases h1 : s = 401 ∨ s = 403
    · rw [if_pos h1]
    · rw [if_neg h1]
      by_cases h2 : s = 400
      · rw [if_pos h2]
        dsimp [classify]
        rw [if_neg h1, h2]
      · rw [if_neg h2]
        dsimp [classify]
        rw [if_neg h1]
        by_cases h3 : retryableStatus s = true
        · rw [if_pos h3]
        · rw [if_neg h3]

theorem completeLoop_terminal (t : Nat) (p : String) (net : Nat → Outcome)
    (a r : Nat) (h : retriedOutcome (net a) = false) :
    completeLoop t p net a r = ⟨classify t p (net a), 1, []⟩ := by
  unfold completeLoop
  cases hnet : net a <;> dsimp only
  any_goals rfl
  case http s =>
    rw [hnet] at h
    by_cases h1 : s = 401 ∨ s = 403
    · rw [if_pos h1]
    · rw [if_neg h1]
      by_cases h2 : s = 400
      · rw [if_pos h2]
        dsimp [classify]
        rw [if_neg h1, h2]
      · rw [if_neg h2]
        dsimp [classify]
        rw [if_neg h1]
        simp only [retriedOutcome, if_neg h1, if_neg h2] at h
        rw [if_neg (by simp [h])]

theorem completeLoop_retry (t : Nat) (p : String) (net : Nat → Outcome)
    (a r : Nat) (h : retriedOutcome (net a) = true) :
    completeLoop t p net a (r + 1) =
      ⟨(completeLoop t p net (a + 1) r).result,
       (completeLoop t p net (a + 1) r).attempts + 1,
       (2 ^ a * 1000) :: (completeLoop t p net (a + 1) r).delays⟩ := by
  conv_lhs => unfold completeLoop
  cases hnet : net a <;> rw [hnet] at h
  case ok rr => simp [retriedOutcome] at h
  case abortTimeout => simp [retriedOutcome] at h
  case other m => simp [retriedOutcome] at h
  case http s =>
    dsimp only
    simp only [retriedOutcome] at h
    by_cases h1 : s = 401 ∨ s = 403
    · rw [if_pos h1] at h
      exact absurd h (by simp)
    · rw [if_neg h1] at h
      by_cases h2 : s = 400
      · rw [if_pos h2] at h
        exact absurd h (by simp)
      · rw [if_neg h2] at h
        rw [if_neg h1, if_neg h2, if_pos h]

theorem completeLoop_attempts_pos (t : Nat) (p : String) (net : Nat → Outcome)
    (a r : Nat) : 1 ≤ (completeLoop t p net a r).attempts := by
  cases r with
  | zero =>
    rw [completeLoop_zero]
  | succ r =>
    by_cases h : retriedOutcome (net a) = true
    · rw [completeLoop_retry t p net a r h]
      dsimp only
      omega
    · rw [completeLoop_terminal t p net a (r + 1) (Bool.not_eq_true _ ▸ h)]

theorem completeLoop_attempts_le (t : Nat) (p : String) (net : Nat → Outcome)
    (a r : Nat) : (completeLoop t p net a r).attempts ≤ r + 1 := by
  induction r generalizing a with
  | zero =>
    rw [completeLoop_zero]
  | succ r ih =>
    by_cases h : retriedOutcome (net a) = true
    · rw [completeLoop_retry t p net a r h]
      have := ih (a + 1)
      dsimp only
      omega
    · rw [completeLoop_terminal t p net a (r + 1) (Bool.not_eq_true _ ▸ h)]
      dsimp only
      omega

theorem completeLoop_delays (t : Nat) (p : String) (net : Nat → Outcome)
    (a r : Nat) :
    (completeLoop t p net a r).delays =
      (List.range ((completeLoop t p net a r).attempts - 1)).map
        (fun i => 2 ^ (a + i) * 1000) := by
  induction r generalizing a with
  | zero =>
    rw [completeLoop_zero]
    simp
  | succ r ih =>
    by_cases h : retriedOutcome (net a) = true
    · rw [completeLoop_retry t p net a r h]
      dsimp only
      have hpos := completeLoop_attempts_pos t p net (a + 1) r
      have hn : (completeLoop t p net (a + 1) r).attempts + 1 - 1 =
          ((completeLoop t p net (a + 1) r).attempts - 1) + 1 := by omega
      rw [hn, List.range_succ_eq_map, List.map_cons, List.map_map]
      have hf : ((fun i => 2 ^ (a + i) * 1000) ∘ (fun i => i + 1)) =
          (fun i => 2 ^ (a + 1 + i) * 1000) := by
        funext i
        have harith : a + (i + 1) = a + 1 + i := by omega
        simp [Function.comp, harith]
      rw [hf, ih (a + 1)]
      simp
    · rw [completeLoop_terminal t p net a (r + 1) (Bool.not_eq_true _ ▸ h)]
      simp

theorem completeLoop_retried (t : Nat) (p : String) (net : Nat → Outcome)
    (a r : Nat) : ∀ k, k + 1 < (completeLoop t p net a r).attempts →
      retriedOutcome (net (a + k)) = true := by
  induction r generalizing a with
  | zero =>
    intro k hk
    rw [completeLoop_zero] at hk
    dsimp only at hk
    omega
  | succ r ih =>
    intro k hk
    by_cases h : retriedOutcome (net a) = true
    · rw [completeLoop_retry t p net a r h] at hk
      dsimp only at hk
      cases k with
      | zero => simpa using h
      | succ k =>
        have hmem := ih (a + 1) k (by omega)
        have harith : a + 1 + k = a + (k + 1) := by omega
        rwa [harith] at hmem
    · rw [completeLoop_terminal t p net a (r + 1) (Bool.not_eq_true _ ▸ h)] at hk
      dsimp only at hk
      omega

theorem completeLoop_final (t : Nat) (p : String) (net : Nat → Outcome)
    (a r : Nat) :
    (completeLoop t p net a r).result =
      classify t p (net (a + ((completeLoop t p net a r).attempts - 1))) := by
  induction r generalizing a with
  | zero =>
    rw [completeLoop_zero]
    simp
  | succ r ih =>
    by_cases h : retriedOutcome (net a) = true
    · rw [completeLoop_retry t p net a r h]
      dsimp only
      have hpos := completeLoop_attempts_pos t p net (a + 1) r
      rw [ih (a + 1)]
      have h3 : a + 1 + ((completeLoop t p net (a + 1) r).attempts - 1) =
          a + ((completeLoop t p net (a + 1) r).attempts + 1 - 1) := by omega
      rw [h3]
    · rw [completeLoop_terminal t p net a (r + 1) (Bool.not_eq_true _ ▸ h)]
      simp

/-- Claim C2: for every call to `complete()`: a timeout aborts with a
terminal user-facing error and is never retried; HTTP 401/403 is a
terminal authentication error; HTTP 400 is terminal and not retried;
HTTP 429 or 5xx is retried with a delay of `2 ^ attempt` seconds
between attempts, with at most `maxRetries + 1` total attempts; any
other failure is terminal.  Formally: the run makes at most
`maxRetries + 1` attempts; the backoff delays slept are exactly
`2 ^ a * 1000` ms for each non-final attempt `a` (i.e. `2 ^ a`
seconds); every attempt that was followed by another one failed with a
retryable status (so timeouts, 401/403, 400 and status-less failures
are never retried); and the terminal result is exactly the
classification of the final attempt's outcome. -/

theorem complete_retry_classification (timeoutMs : Nat) (provider : String)
    (maxRetries : Nat) (net : Nat → Outcome) :
    (complete timeoutMs provider maxRetries net).attempts ≤ maxRetries + 1 ∧
    (complete timeoutMs provider maxRetries net).delays =
      (List.range ((complete timeoutMs provider maxRetries net).attempts - 1)).map
        (fun a => 2 ^ a * 1000) ∧
    (∀ k, k + 1 < (complete timeoutMs provider maxRetries net).attempts →
      retriedOutcome (net k) = true) ∧
    (complete timeoutMs provider maxRetries net).result =
      classify timeoutMs provider
        (net ((complete timeoutMs provider maxRetries net).attempts - 1)) := by
  refine ⟨completeLoop_attempts_le timeoutMs provider net 0 maxRetries, ?_, ?_, ?_⟩
  · have h := completeLoop_delays timeoutMs provider net 0 maxRetries
    simpa using h
  · intro k hk
    have h := completeLoop_retried timeoutMs provider net 0 maxRetries k hk
    simpa using h
  · have h := completeLoop_final timeoutMs provider net 0 maxRetries
    simpa using h

theorem complete_retry_classification_witness :
    retriedOutcome (netEx 0) = true ∧
    (complete 60000 "openai" 2 netEx).delays = [1000, 2000] ∧
    (complete 60000 "openai" 2 netEx).result = .success ⟨"done", none⟩ :=
  ⟨(complete_retry_classification 60000 "openai" 2 netEx).2.2.1 0 (by decide),
   by decide, by decide⟩

end AIClientM

namespace BackgroundM

open AIClientM (ToolCall CanonResp)

theorem trimHistory_length_le (h : List Message) :
    (trimHistory h).length ≤ MAX_HISTORY_PER_TAB := by
  unfold trimHistory
  split
  case isTrue hlen =>
    simp only [List.length_append, List.length_take, List.length_drop,
      MAX_HISTORY_PER_TAB] at hlen ⊢
    omega
  case isFalse hlen =>
    omega

theorem trimHistory_mem (h : List Message) (m : Message)
    (hm : m ∈ trimHistory h) : m ∈ h := by
  unfold trimHistory at hm
  split at hm
  case isTrue hlen =>
    rcases List.mem_append.mp hm with hl | hr
    · exact List.mem_of_mem_drop (List.mem_of_mem_take hl)
    · exact List.mem_of_mem_drop hr
  case isFalse hlen =>
    exact hm

theorem executeToolCalls_length (host : ChatHost) (calls : List ToolCall) :
    (executeToolCalls host calls).length = calls.length := by
  induction calls with
  | nil => rfl
  | cons c rest ih => simp [executeToolCalls, ih]

theorem executeToolCalls_getElem? (host : ChatHost) (calls : List ToolCall)
    (i : Nat) :
    (executeToolCalls host calls)[i]? = (calls[i]?).map (fun c =>
      match attemptToolCall host c with
      | .ok r => r
      | .error e => { success := false, error := some e, tool := some c.name }) := by
  induction calls generalizing i with
  | nil => simp [executeToolCalls]
  | cons c rest ih =>
    cases i with
    | zero => simp [executeToolCalls]
    | succ i => simpa [executeToolCalls] using ih i

/-- Claim C3: for every input list of tool calls, `executeToolCalls`
returns a result list of the same length with the i-th result
corresponding to the i-th call, and any individual call that fails
(including invalid JSON arguments or a messaging error, both raised
inside `attemptToolCall`) yields a result with `success = false` at
its position while the remaining calls are still executed in order. -/

theorem executeToolCalls_pointwise (host : ChatHost) (calls : List ToolCall) :
    (executeToolCalls host calls).length = calls.length ∧
    (∀ i : Nat, (executeToolCalls host calls)[i]? = (calls[i]?).map (fun c =>
      match attemptToolCall host c with
      | .ok r => r
      | .error e => ({ success := false, error := some e, tool := some c.name } : ToolResult))) ∧
    (∀ (i : Nat) (c : ToolCall) (e : String),
      calls[i]? = some c → attemptToolCall host c = .error e →
      (executeToolCalls host calls)[i]? =
        some ({ success := false, error := some e, tool := some c.name } : ToolResult)) := by
  refine ⟨executeToolCalls_length host calls, executeToolCalls_getElem? host calls, ?_⟩
  intro i c e hc herr
  rw [executeToolCalls_getElem? host calls i, hc]
  simp [herr]

theorem executeToolCalls_pointwise_witness :
    callsEx[1]? = some ⟨"id2", "fill_form", "bad"⟩ ∧
    attemptToolCall hostFail ⟨"id2", "fill_form", "bad"⟩ = .error "Unexpected token" ∧
    (executeToolCalls hostFail callsEx)[1]? =
      some { success := false, error := some "Unexpected token", tool := some "fill_form" } :=
  ⟨by decide, rfl,
   (executeToolCalls_pointwise hostFail callsEx).2.2 1 ⟨"id2", "fill_form", "bad"⟩
     "Unexpected token" (by decide) rfl⟩

/-- Claim C1 counterexample: after a chat turn whose first provider
response carries a tool call, the session history contains only the
user turn and the final assistant turn — no assistant turn carrying
the original tool calls and no tool-role turn is persisted (they exist
only in the transient message list of the second provider call). -/

theorem handleChat_history_omits_tool_turns :
    (handleChat [] "click the submit button" hostOk respTool respFinal).history =
      [{ role := Role.user, content := "click the submit button" },
       { role := Role.assistant, content := "Done" }] ∧
    ((handleChat [] "click the submit button" hostOk respTool respFinal).history.all
      (fun m => m.tool_calls.isEmpty && m.role != Role.tool)) = true := by
  constructor
  · decide
  · decide

/-- Claim C1 (amended): when the first provider response carries tool
calls, the turn builds the full round-trip sequence — prior history,
user turn, assistant turn carrying the original tool calls, one
tool-role message per result tagged with its ToolCall id — only into
the transient message list sent to the second provider call; the
session history persisted after the turn is the prior history plus the
user turn plus the final assistant turn (trimmed), and contains no new
tool-role turn. -/

theorem handleChat_tool_round_trip
    (history0 : List Message) (message : String) (host : ChatHost)
    (resp finalResp : CanonResp) (calls : List ToolCall)
    (hcalls : resp.tool_calls = some calls) (hne : 0 < calls.length) :
    (handleChat history0 message host resp finalResp).secondCallMessages =
      some (((history0 ++ [{ role := Role.user, content := message }]) ++
        [{ role := Role.assistant, content := resp.content, tool_calls := calls }]) ++
        (executeToolCalls host calls).enum.map (fun p =>
          ({ role := Role.tool, content := host.stringify p.2,
             tool_call_id := some ((calls.getD p.1 default).id) } : Message))) ∧
    (∀ (msgs2 : List Message) (i : Nat),
      (handleChat history0 message host resp finalResp).secondCallMessages = some msgs2 →
      i < calls.length →
      msgs2[history0.length + 2 + i]? =
        some { role := Role.tool,
               content := host.stringify ((executeToolCalls host calls).getD i default),
               tool_call_id := some ((calls.getD i default).id) }) ∧
    (handleChat history0 message host resp finalResp).history =
      trimHistory ((history0 ++ [{ role := Role.user, content := message }]) ++
        [{ role := Role.assistant, content := finalResp.content }]) ∧
    (∀ m ∈ (handleChat history0 message host resp finalResp).history,
      m.role = Role.tool → m ∈ history0) := by
  have hstep : handleChat history0 message host resp finalResp =
      ⟨trimHistory ((history0 ++ [{ role := Role.user, content := message }]) ++
          [{ role := Role.assistant, content := finalResp.content }]),
       some (((history0 ++ [{ role := Role.user, content := message }]) ++
          [{ role := Role.assistant, content := resp.content, tool_calls := calls }]) ++
          (executeToolCalls host calls).enum.map (fun p =>
            ({ role := Role.tool, content := host.stringify p.2,
               tool_call_id := some ((calls.getD p.1 default).id) } : Message))),
       finalResp.content⟩ := by
    unfold handleChat
    rw [hcalls]
    dsimp only
    rw [if_pos hne]
  refine ⟨?_, ?_, ?_, ?_⟩
  · rw [hstep]
  · intro msgs2 i hsome hi
    rw [hstep] at hsome
    dsimp only at hsome
    have hh := Option.some.inj hsome
    subst hh
    have hplen : (((history0 ++ [({ role := Role.user, content := message } : Message)]) ++
        [({ role := Role.assistant, content := resp.content, tool_calls := calls } : Message)])).length =
        history0.length + 2 := by simp
    rw [List.getElem?_append_right (by rw [hplen]; omega)]
    rw [hplen]
    have hidx : history0.length + 2 + i - (history0.length + 2) = i := by omega
    rw [hidx]
    rw [List.getElem?_map, List.getElem?_enum]
    have hlen : i < (executeToolCalls host calls).length := by
      rw [executeToolCalls_length]
      exact hi
    rw [List.getElem?_eq_getElem hlen]
    rw [List.getD_eq_getElem _ _ hlen, List.getD_eq_getElem _ _ hi]
    simp only [Option.map_some']
    rw [List.getD_eq_getElem _ _ hi]
  · rw [hstep]
  · intro m hm hrole
    rw [hstep] at hm
    dsimp only at hm
    have hmem := trimHistory_mem _ _ hm
    rcases List.mem_append.mp hmem with h1 | h2
    · rcases List.mem_append.mp h1 with h3 | h4
      · exact h3
      · simp only [List.mem_singleton] at h4
        subst h4
        simp at hrole
    · simp only [List.mem_singleton] at h2
      subst h2
      simp at hrole

theorem handleChat_tool_round_trip_witness :
    (handleChat [] "click the submit button" hostOk respTool respFinal).history =
      trimHistory (([] ++ [{ role := Role.user, content := "click the submit button" }]) ++
        [{ role := Role.assistant, content := "Done" }]) :=
  (handleChat_tool_round_trip [] "click the submit button" hostOk respTool respFinal
    [⟨"call_1", "click_element", "args"⟩] rfl (by decide)).2.2.1

/-- Claim C4 counterexample: on a 21-entry history with no system turn,
`trimHistory` does not keep the most recent 20 entries: it keeps the
very first entry and drops the second-oldest one, so it is not a
simple sliding window. -/

theorem trimHistory_not_sliding_window :
    trimHistory hist21 ≠ hist21.drop 1 ∧
    hist21.getD 1 default ∉ trimHistory hist21 ∧
    hist21.getD 0 default ∈ trimHistory hist21 := by
  refine ⟨by decide, by decide, by decide⟩

theorem take_one_drop_eq_getElem? {α : Type} (l : List α) (n : Nat) :
    (l.drop n).take 1 = (l[n]?).toList := by
  induction l generalizing n with
  | nil => simp
  | cons a l ih =>
    cases n with
    | zero => simp
    | succ n => simpa using ih n

/-- Claim C4 (amended): trimming caps the history at
`MAX_HISTORY_PER_TAB` entries, but it is not a simple sliding window:
when over the limit the result is the most recent
`MAX_HISTORY_PER_TAB - 1` entries, preceded by the single entry just
after the first system turn — nothing when that system turn is last,
the very first entry when no system turn exists.  The special head
slot never holds the system turn itself, and the kept older entry is
not removed from the recent window, so when it already lies among the
last `MAX_HISTORY_PER_TAB - 1` entries it appears twice in the result
(a system turn lying inside that recent window survives there like
any other entry). -/

theorem trimHistory_keeps_suffix_and_head (h : List Message) :
    (trimHistory h).length ≤ MAX_HISTORY_PER_TAB ∧
    (MAX_HISTORY_PER_TAB < h.length →
      ((trimHistory h).drop ((trimHistory h).length - (MAX_HISTORY_PER_TAB - 1)) =
          h.drop (h.length - (MAX_HISTORY_PER_TAB - 1)) ∧
       ((∀ m ∈ h, m.role ≠ Role.system) →
          trimHistory h =
            h.take 1 ++ h.drop (h.length - (MAX_HISTORY_PER_TAB - 1))) ∧
       (∀ i, h.findIdx? (fun m => m.role == Role.system) = some i →
          trimHistory h =
            (h[i + 1]?).toList ++
              h.drop (h.length - (MAX_HISTORY_PER_TAB - 1))))) := by
  refine ⟨trimHistory_length_le h, ?_⟩
  intro hlen
  have hnone : ∀ startIdx : Nat,
      ((h.drop startIdx).take 1 ++ h.drop (h.length - (MAX_HISTORY_PER_TAB - 1))).drop
          (((h.drop startIdx).take 1 ++ h.drop (h.length - (MAX_HISTORY_PER_TAB - 1))).length
            - (MAX_HISTORY_PER_TAB - 1)) =
        h.drop (h.length - (MAX_HISTORY_PER_TAB - 1)) := by
    intro startIdx
    have hdroplen : (h.drop (h.length - (MAX_HISTORY_PER_TAB - 1))).length =
        MAX_HISTORY_PER_TAB - 1 := by
      simp only [List.length_drop, MAX_HISTORY_PER_TAB] at hlen ⊢
      omega
    have htakelen : ((h.drop startIdx).take 1).length =
        min 1 (h.length - startIdx) := by
      simp
    rw [List.length_append, hdroplen]
    have harith : ((h.drop startIdx).take 1).length + (MAX_HISTORY_PER_TAB - 1)
        - (MAX_HISTORY_PER_TAB - 1) = ((h.drop startIdx).take 1).length := by
      omega
    rw [harith, List.drop_left]
  refine ⟨?_, ?_, ?_⟩
  · unfold trimHistory
    rw [if_pos hlen]
    exact hnone _
  · intro hsys
    have hfind : h.findIdx? (fun m => m.role == Role.system) = none := by
      rw [List.findIdx?_eq_none_iff]
      intro m hm
      simpa using hsys m hm
    unfold trimHistory
    rw [if_pos hlen, hfind]
    simp only [List.drop_zero]
  · intro i hfind
    unfold trimHistory
    rw [if_pos hlen, hfind]
    dsimp only
    rw [take_one_drop_eq_getElem?]

theorem trimHistory_keeps_suffix_and_head_witness :
    MAX_HISTORY_PER_TAB < hist21.length ∧
    trimHistory hist21 =
      hist21.take 1 ++ hist21.drop (hist21.length - (MAX_HISTORY_PER_TAB - 1)) ∧
    hSys21.findIdx? (fun m => m.role == Role.system) = some 10 ∧
    trimHistory hSys21 =
      (hSys21[11]?).toList ++
        hSys21.drop (hSys21.length - (MAX_HISTORY_PER_TAB - 1)) ∧
    (trimHistory hSys21).count (hSys21.getD 11 default) = 2 :=
  ⟨by decide,
   ((trimHistory_keeps_suffix_and_head hist21).2 (by decide)).2.1 (by decide),
   by decide,
   ((trimHistory_keeps_suffix_and_head hSys21).2 (by decide)).2.2 10 (by decide),
   by decide⟩

theorem handleChat_history_length_le (history : List Message) (message : String)
    (host : ChatHost) (resp finalResp : CanonResp) :
    (handleChat history message host resp finalResp).history.length ≤
      MAX_HISTORY_PER_TAB := by
  unfold handleChat
  cases resp.tool_calls with
  | none => exact trimHistory_length_le _
  | some calls =>
    dsimp only
    split
    · exact trimHistory_length_le _
    · exact trimHistory_length_le _

/-- Claim C5 counterexample: after ten chat turns the history holds
exactly 20 entries; a subsequent navigation pushes a system turn with
no trimming, leaving 21 entries — above `MAX_HISTORY_PER_TAB` — once
that event's processing has completed. -/

theorem history_exceeds_max_after_navigation :
    (runEvents hostOk eventsEx).length = 21 ∧
    MAX_HISTORY_PER_TAB < (runEvents hostOk eventsEx).length := by
  refine ⟨by decide, by decide⟩

/-- Claim C5 (amended): the history length never exceeds
`MAX_HISTORY_PER_TAB` after a chat turn completes, but a navigation
event appends a system entry without trimming, so after navigation
events the length can exceed the limit until the next chat turn. -/

theorem chat_turn_bounds_history (host : ChatHost) (history : List Message)
    (message : String) (resp finalResp : CanonResp) (url : String) :
    (stepEvent host history (.chatTurn message resp finalResp)).length ≤
      MAX_HISTORY_PER_TAB ∧
    (stepEvent host history (.navigation url)).length = history.length + 1 := by
  constructor
  · exact handleChat_history_length_le history message host resp finalResp
  · simp [stepEvent, handleNavigation]

/-- Claim C6 counterexample: with no AI client configured,
`clear_history` and `get_history` are refused with the "AI not
configured" error instead of being serviced (the session is not
cleared and the history is not returned) — only `get_config` and
`set_config` are exempt from the guard. -/

theorem clear_history_requires_ai :
    (handleMessage hostOk respEmpty respEmpty stNoAi 5 .clearHistory).response =
      .errorMsg "AI not configured. Please set API key in settings." ∧
    (handleMessage hostOk respEmpty respEmpty stNoAi 5 .clearHistory).response ≠
      .okSuccess ∧
    (handleMessage hostOk respEmpty respEmpty stNoAi 5 .clearHistory).state =
      stNoAi ∧
    (handleMessage hostOk respEmpty respEmpty stNoAi 5 .getHistory).response ≠
      .historyValue (sessionHistory stNoAi 5) := by
  refine ⟨by decide, by decide, by decide, by decide⟩

/-- Claim C6 (amended): with no provider client configured, only
`get_config` and `set_config` are serviced normally; `clear_history`
and `get_history` hit the guard and return the "AI not configured"
error, leaving the state untouched. -/

theorem admin_actions_guard (host : ChatHost) (resp finalResp : CanonResp)
    (st : BgState) (tabId : Nat) (cfg : StoredConfig) (hai : st.ai = none) :
    (handleMessage host resp finalResp st tabId .getConfig).response =
      .configValue st.storedConfig ∧
    (handleMessage host resp finalResp st tabId (.setConfig cfg)).response =
      .okSuccess ∧
    (handleMessage host resp finalResp st tabId .clearHistory) =
      ⟨.errorMsg "AI not configured. Please set API key in settings.", st, 0⟩ ∧
    (handleMessage host resp finalResp st tabId .getHistory) =
      ⟨.errorMsg "AI not configured. Please set API key in settings.", st, 0⟩ := by
  refine ⟨?_, ?_, ?_, ?_⟩ <;> simp [handleMessage, hai, isConfigAction]

theorem admin_actions_guard_witness :
    stNoAi.ai = none ∧
    (handleMessage hostOk respEmpty respEmpty stNoAi 5 .getConfig).response =
      .configValue none ∧
    (handleMessage hostOk respEmpty respEmpty stNoAi 5 .clearHistory) =
      ⟨.errorMsg "AI not configured. Please set API key in settings.", stNoAi, 0⟩ :=
  ⟨rfl,
   (admin_actions_guard hostOk respEmpty respEmpty stNoAi 5 default rfl).1,
   (admin_actions_guard hostOk respEmpty respEmpty stNoAi 5 default rfl).2.2.1⟩

/-- Claim C10 counterexample: `updateConfig` installs a client
unconditionally, so after a `set_config` whose config has no apiKey
(here provider = local) the stored configuration still has no apiKey,
yet a subsequent chat message is serviced — it is not refused with the
"AI not configured" error and it does contact the provider. -/

theorem chat_after_keyless_set_config :
    jsTruthy (((handleMessage hostOk respEmpty respEmpty (initState none) 7
        (.setConfig keylessLocal)).state.storedConfig.getD default).apiKey) = false ∧
    (handleMessage hostOk respEmpty respEmpty
      ((handleMessage hostOk respEmpty respEmpty (initState none) 7
        (.setConfig keylessLocal)).state) 7 (.chat "hi")).response ≠
      .errorMsg "AI not configured. Please set API key in settings." ∧
    0 < (handleMessage hostOk respEmpty respEmpty
      ((handleMessage hostOk respEmpty respEmpty (initState none) 7
        (.setConfig keylessLocal)).state) 7 (.chat "hi")).providerCalls := by
  refine ⟨by decide, by decide, by decide⟩

/-- Claim C10 (amended): on a state freshly initialised from storage,
if the stored configuration has no truthy apiKey then every chat,
analyze_page, summarize or extract_data message is answered with the
"AI not configured" error, with no provider call and no state change —
regardless of the configured provider, including provider = local.
(After a set_config with a keyless config, however, the client exists
and the guard no longer fires — see the counterexample.) -/

theorem no_api_key_guard (stored : Option StoredConfig) (host : ChatHost)
    (resp finalResp : CanonResp) (tabId : Nat) (req : Request)
    (hkey : jsTruthy ((stored.getD default).apiKey) = false)
    (hreq : isAiAction req = true) :
    handleMessage host resp finalResp (initState stored) tabId req =
      ⟨.errorMsg "AI not configured. Please set API key in settings.",
       initState stored, 0⟩ := by
  have hai : (initState stored).ai = none := by
    unfold initState
    cases stored with
    | none => rfl
    | some cfg =>
      simp only [Option.getD] at hkey
      simp [hkey]
  have hcfg : isConfigAction req = false := by
    cases req <;> simp_all [isAiAction, isConfigAction]
  unfold handleMessage
  rw [hai]
  simp [hcfg]

theorem no_api_key_guard_witness :
    jsTruthy (((some keylessLocal).getD default).apiKey) = false ∧
    isAiAction (Request.chat "hi") = true ∧
    handleMessage hostOk respEmpty respEmpty (initState (some keylessLocal)) 1
        (.chat "hi") =
      ⟨.errorMsg "AI not configured. Please set API key in settings.",
       initState (some keylessLocal), 0⟩ :=
  ⟨by decide, rfl,
   no_api_key_guard (some keylessLocal) hostOk respEmpty respEmpty 1
     (.chat "hi") (by decide) rfl⟩

end BackgroundM

namespace ContentM

/-- Claim C8: element resolution tries, in order and stopping at the
first success: (1) the explicit selector if supplied, (2) substring
match against text content, (3) match against accessibility-label
attributes, (4) fuzzy match accepting the first interactive element
whose lowercased rendered text contains any lowercase keyword of the
description; and a resolved element that is not visible produces a
failure result distinct from the not-found failure. -/

theorem findAndClick_cascade_spec (clickHost : Elem → Except String Unit)
    (doc : Document) (description : String) (selector : Option String) :
    (∀ s e, selector = some s → querySelector doc s = some e →
      resolveElement doc description selector = some (e, "selector")) ∧
    (∀ e, (selector = none ∨ ∃ s, selector = some s ∧ querySelector doc s = none) →
      findElementByText doc description = some e →
      resolveElement doc description selector = some (e, "text")) ∧
    (∀ e, (selector = none ∨ ∃ s, selector = some s ∧ querySelector doc s = none) →
      findElementByText doc description = none →
      findElementByAria doc description = some e →
      resolveElement doc description selector = some (e, "aria")) ∧
    (∀ e, (selector = none ∨ ∃ s, selector = some s ∧ querySelector doc s = none) →
      findElementByText doc description = none →
      findElementByAria doc description = none →
      fuzzyFindElement doc description = some e →
      resolveElement doc description selector = some (e, "fuzzy")) ∧
    (∀ e, fuzzyFindElement doc description = some e →
      e ∈ doc ∧ e.fuzzyCandidate = true ∧ fuzzyMatches description e = true ∧
      ∃ pre post, doc.filter (fun el => el.fuzzyCandidate) = pre ++ e :: post ∧
        ∀ x ∈ pre, fuzzyMatches description x = false) ∧
    (resolveElement doc description selector = none →
      findAndClick clickHost doc description selector = .notFound description selector) ∧
    (∀ e m, resolveElement doc description selector = some (e, m) →
      e.visible = false →
      findAndClick clickHost doc description selector = .notVisible (describeElement e) ∧
      ∀ d2 s2, ClickOutcome.notVisible (describeElement e) ≠ .notFound d2 s2) := by
  refine ⟨?_, ?_, ?_, ?_, ?_, ?_, ?_⟩
  · intro s e hs hq
    subst hs
    simp [resolveElement, hq]
  · intro e hsel htext
    rcases hsel with hnone | ⟨s, hs, hq⟩
    · subst hnone
      simp [resolveElement, htext]
    · subst hs
      simp [resolveElement, hq, htext]
  · intro e hsel htext haria
    rcases hsel with hnone | ⟨s, hs, hq⟩
    · subst hnone
      simp [resolveElement, htext, haria]
    · subst hs
      simp [resolveElement, hq, htext, haria]
  · intro e hsel htext haria hfuzzy
    rcases hsel with hnone | ⟨s, hs, hq⟩
    · subst hnone
      simp [resolveElement, htext, haria, hfuzzy]
    · subst hs
      simp [resolveElement, hq, htext, haria, hfuzzy]
  · intro e hfind
    obtain ⟨hp, pre, post, heq, hall⟩ := List.find?_eq_some.mp hfind
    have hmemf : e ∈ doc.filter (fun el => el.fuzzyCandidate) :=
      List.mem_of_find?_eq_some hfind
    have hmem := List.mem_filter.mp hmemf
    refine ⟨hmem.1, by simpa using hmem.2, hp, pre, post, heq, ?_⟩
    intro x hx
    have := hall x hx
    simpa using this
  · intro hres
    unfold findAndClick
    rw [hres]
  · intro e m hres hvis
    constructor
    · unfold findAndClick
      rw [hres]
      dsimp only
      rw [if_neg (by simp [hvis])]
    · intro d2 s2 hcon
      exact ClickOutcome.noConfusion hcon

theorem findAndClick_cascade_spec_witness :
    resolveElement docEx8 "submit button" none = some (btnEx, "fuzzy") ∧
    findAndClick clickOk docEx8 "submit button" none =
      .clicked "fuzzy" (describeElement btnEx) :=
  ⟨(findAndClick_cascade_spec clickOk docEx8 "submit button" none).2.2.2.1 btnEx
     (Or.inl rfl) (by decide) (by decide) (by decide),
   by decide⟩

/-- Claim C7 counterexample: with a two-field schema where one selector
matches nothing, the matching field gets its value but the
non-matching field is recorded as null — not as an inline error
marker (the `catch` never fires because `extractValue(undefined)`
returns null instead of throwing). -/

theorem extract_missing_field_yields_null :
    (extractData hostEx7 docEx7 schemaEx7).data =
      [("title", .scalar (.str "Hello")), ("price", .scalar .nullV)] ∧
    ((extractData hostEx7 docEx7 schemaEx7).data.lookup "price").map isErrObj =
      some false := by
  refine ⟨by decide, by decide⟩

/-- Claim C7 (amended): extraction never aborts — each schema field is
processed independently, a field whose extraction throws (for example
an invalid selector) is recorded inline as an error value while the
other fields are still extracted; but a valid selector that matches
nothing yields null for the field (or an empty array when `multiple`),
not an inline error marker. -/

theorem extractData_per_field (host : ExtractHost) (doc : Document)
    (k : String) (cfg : FieldConfig) (rest : List (String × FieldConfig))
    (sel : String) :
    (extractData host doc ((k, cfg) :: rest)).success = true ∧
    (extractData host doc ((k, cfg) :: rest)).data =
      (match fieldOutcome host doc cfg with
       | some v => [(k, v)]
       | none => []) ++ (extractData host doc rest).data ∧
    (truthyStr cfg.selector = some sel → host.selectorValid sel = false →
      fieldOutcome host doc cfg = some (.errObj
        ("Failed to execute querySelectorAll: " ++ sel ++
          " is not a valid selector."))) ∧
    (truthyStr cfg.selector = some sel → host.selectorValid sel = true →
      doc.filter (fun el => el.selectors.contains sel) = [] →
      cfg.multiple = false →
      fieldOutcome host doc cfg = some (.scalar .nullV)) ∧
    (truthyStr cfg.selector = some sel → host.selectorValid sel = true →
      doc.filter (fun el => el.selectors.contains sel) = [] →
      cfg.multiple = true →
      fieldOutcome host doc cfg = some (.arr [])) := by
  refine ⟨rfl, ?_, ?_, ?_, ?_⟩
  · show extractLoop host doc ((k, cfg) :: rest) = _
    unfold extractLoop
    cases fieldOutcome host doc cfg <;> simp [extractData]
  · intro hsel hvalid
    simp [fieldOutcome, extractFieldE, querySelectorAll, hsel, hvalid]
  · intro hsel hvalid hempty hmult
    unfold fieldOutcome extractFieldE querySelectorAll
    rw [hsel]
    dsimp only
    rw [if_pos hvalid, hempty]
    dsimp only
    rw [if_neg (by simp [hmult])]
    rfl
  · intro hsel hvalid hempty hmult
    unfold fieldOutcome extractFieldE querySelectorAll
    rw [hsel]
    dsimp only
    rw [if_pos hvalid, hempty]
    dsimp only
    rw [if_pos hmult]
    rfl

theorem extractData_per_field_witness :
    truthyStr (some ".price") = some ".price" ∧
    hostEx7.selectorValid ".price" = true ∧
    docEx7.filter (fun el => el.selectors.contains ".price") = [] ∧
    fieldOutcome hostEx7 docEx7 { selector := some ".price" } =
      some (.scalar .nullV) :=
  ⟨rfl, rfl, by decide,
   (extractData_per_field hostEx7 docEx7 "price" { selector := some ".price" }
      [] ".price").2.2.2.1 rfl rfl (by decide) rfl⟩

theorem markQueries_append (a b : HDoc) :
    markQueries (a ++ b) = markQueries a ++ markQueries b :=
  List.filterMap_append a b _

theorem markQueries_normalizeNodes (l : HDoc) :
    markQueries (normalizeNodes l) = markQueries l := by
  induction l with
  | nil => rfl
  | cons n rest ih =>
    cases n with
    | text a =>
      rw [normalizeNodes]
      cases hres : normalizeNodes rest with
      | nil =>
        have h2 : markQueries rest = [] := by rw [← ih, hres]; rfl
        simp [markQueries, List.filterMap_cons] at h2 ⊢
        exact h2
      | cons hd tail =>
        have h2 : markQueries (hd :: tail) = markQueries rest := by
          rw [← ih, hres]
        cases hd <;>
          simp_all [markQueries, List.filterMap_cons]
    | rawText s =>
      rw [normalizeNodes]
      simp [markQueries, List.filterMap_cons] at ih ⊢
      exact ih
    | mark q c =>
      rw [normalizeNodes]
      simp [markQueries, List.filterMap_cons] at ih ⊢
      exact ih

theorem markQueries_map_unwrap (l : HDoc) :
    markQueries (l.map unwrapMark) = [] := by
  induction l with
  | nil => rfl
  | cons n rest ih => cases n <;> simpa [markQueries, unwrapMark] using ih

theorem clearHighlights_marks (doc : HDoc) :
    markQueries (clearHighlights doc) = [] := by
  unfold clearHighlights
  rw [markQueries_normalizeNodes]
  exact markQueries_map_unwrap doc

theorem no_marks_of_markQueries_nil (l : HDoc) (h : markQueries l = []) :
    ∀ n ∈ l, isMark n = false := by
  induction l with
  | nil => intro n hn; cases hn
  | cons n rest ih =>
    intro m hm
    cases n with
    | mark q c => simp [markQueries] at h
    | text s =>
      rcases List.mem_cons.mp hm with rfl | hmem
      · rfl
      · exact ih (by simpa [markQueries] using h) m hmem
    | rawText s =>
      rcases List.mem_cons.mp hm with rfl | hmem
      · rfl
      · exact ih (by simpa [markQueries] using h) m hmem

theorem scanWrap_marksAux (q : String) (cs : Bool) (N : Nat) :
    ∀ (t acc : List Char), t.length ≤ N →
      (markQueries (scanWrap q cs t acc)).all (fun s => s == q) = true := by
  induction N with
  | zero =>
    intro t acc ht
    have hnil : t = [] := List.eq_nil_of_length_eq_zero (by omega)
    subst hnil
    rw [scanWrap]
    split <;> simp [markQueries]
  | succ N ih =>
    intro t acc ht
    cases t with
    | nil =>
      rw [scanWrap]
      split <;> simp [markQueries]
    | cons c rest =>
      rw [scanWrap]
      by_cases h : q.data ≠ [] ∧ matchAt cs q.data (c :: rest) = true
      · rw [dif_pos h]
        rw [markQueries_append]
        simp only [List.all_append, Bool.and_eq_true]
        constructor
        · split <;> simp [markQueries]
        · have hlen : ((c :: rest).drop q.data.length).length ≤ N := by
            have hq : 0 < q.data.length := List.length_pos.mpr h.1
            simp only [List.length_drop, List.length_cons]
            simp only [List.length_cons] at ht
            omega
          have hrec := ih ((c :: rest).drop q.data.length) [] hlen
          simpa [markQueries] using hrec
      · rw [dif_neg h]
        exact ih rest (c :: acc) (by simp at ht ⊢; omega)

theorem scanWrap_marks (q : String) (cs : Bool) (t acc : List Char) :
    (markQueries (scanWrap q cs t acc)).all (fun s => s == q) = true :=
  scanWrap_marksAux q cs t.length t acc (le_refl _)

theorem wrapNode_marks (q : String) (cs : Bool) (n : HNode)
    (hn : isMark n = false) :
    (markQueries (wrapNode q cs n)).all (fun s => s == q) = true := by
  cases n with
  | text s => exact scanWrap_marks q cs s.data []
  | rawText s => simp [wrapNode, markQueries]
  | mark qq c => simp [isMark] at hn

theorem wrapAll_marks (q : String) (cs : Bool) (l : HDoc)
    (hl : ∀ n ∈ l, isMark n = false) :
    (markQueries ((l.map (wrapNode q cs)).flatten)).all (fun s => s == q) = true := by
  induction l with
  | nil => rfl
  | cons n rest ih =>
    simp only [List.map_cons, List.flatten_cons]
    rw [markQueries_append]
    simp only [List.all_append, Bool.and_eq_true]
    constructor
    · exact wrapNode_marks q cs n (hl n (List.mem_cons_self n rest))
    · exact ih (fun m hm => hl m (List.mem_cons_of_mem n hm))

theorem findAndHighlight_fst (q : String) (cs : Bool) (doc : HDoc) :
    (findAndHighlight q cs doc).1 = clearHighlights doc ∨
    (findAndHighlight q cs doc).1 =
      ((clearHighlights doc).map (wrapNode q cs)).flatten := by
  unfold findAndHighlight
  dsimp only
  split
  · exact Or.inl rfl
  · exact Or.inr rfl

/-- Claim C9: every `find_text` invocation first removes all highlight
marks left by any previous invocation (even when its own query is too
short to highlight), so after two successive `find_text` calls every
mark present in the document was created by the second query — no mark
from the first query remains (the provenance tag of every remaining
mark is the second query). -/

theorem findAndHighlight_clears_previous_marks (q1 : String) (cs1 : Bool)
    (q2 : String) (cs2 : Bool) (doc : HDoc) :
    markQueries (clearHighlights doc) = [] ∧
    (markQueries ((findAndHighlight q2 cs2
        ((findAndHighlight q1 cs1 doc).1)).1)).all (fun s => s == q2) = true := by
  refine ⟨clearHighlights_marks doc, ?_⟩
  rcases findAndHighlight_fst q2 cs2 ((findAndHighlight q1 cs1 doc).1) with h | h <;>
    rw [h]
  · rw [clearHighlights_marks]
    rfl
  · exact wrapAll_marks q2 cs2 _
      (no_marks_of_markQueries_nil _ (clearHighlights_marks _))

end ContentM
